import Mathlib

/-!
Verification of the claudectl workspace manager against its specification.

Shallow embedding of the Python sources:
  * `src/claudectl/core/workspaces.py`   — Workspace model, porcelain parsing,
    discovery, branch-name sanitizing, deterministic workspace paths
  * `src/claudectl/operations/workspace_ops.py` — WorkspaceManager operations
  * `src/claudectl/domain/git.py`        — is_worktree_clean
  * `src/claudectl/operations/context.py` — copy_claude_context

Python strings are modelled as `List Char` (`Str`), Python `Path` values as
their string rendering, the filesystem and git state as explicit data passed
to each operation, and Python exceptions as explicit error results.
-/

namespace Claudectl

/-- Python `str` modelled as a list of characters. -/
abbrev Str := List Char

/-- Characters matched by the Python regex character class `[/\\]`
(step 1 of `sanitize_workspace_name`). -/
def isPathSep (c : Char) : Bool := c == '/' || c == '\\'

/-- Characters matched by Python's `\s` (and `str.isspace`): the ASCII
whitespace characters 9–13 and 32, the C1 controls 28–31, NEL (133),
NBSP (160), and the Unicode space separators (Ogham space 5760, the
8192–8202 range, line/paragraph separators 8232/8233, narrow NBSP 8239,
medium mathematical space 8287, ideographic space 12288). Written over
`Char.toNat` code points. -/
def isPyWhitespace (c : Char) : Bool :=
  decide (c.toNat = 9) || decide (c.toNat = 10) || decide (c.toNat = 11) ||
  decide (c.toNat = 12) || decide (c.toNat = 13) || decide (c.toNat = 32) ||
  decide (c.toNat = 28) || decide (c.toNat = 29) || decide (c.toNat = 30) ||
  decide (c.toNat = 31) || decide (c.toNat = 133) || decide (c.toNat = 160) ||
  decide (c.toNat = 5760) ||
  (decide (8192 ≤ c.toNat) && decide (c.toNat ≤ 8202)) ||
  decide (c.toNat = 8232) || decide (c.toNat = 8233) || decide (c.toNat = 8239) ||
  decide (c.toNat = 8287) || decide (c.toNat = 12288)

/-- Characters matched by the Python regex character class `[_\s]`
(step 2 of `sanitize_workspace_name`). -/
def isUnderscoreOrWs (c : Char) : Bool := c == '_' || isPyWhitespace c

/-- Characters kept by step 3 of `sanitize_workspace_name`: the complement of
the regex class `[^a-zA-Z0-9\-.]`, i.e. `a`–`z` (97–122), `A`–`Z` (65–90),
`0`–`9` (48–57), `-` (45) and `.` (46), written over code points. -/
def safeChar (c : Char) : Bool :=
  (decide (97 ≤ c.toNat) && decide (c.toNat ≤ 122)) ||
  (decide (65 ≤ c.toNat) && decide (c.toNat ≤ 90)) ||
  (decide (48 ≤ c.toNat) && decide (c.toNat ≤ 57)) ||
  decide (c.toNat = 45) || decide (c.toNat = 46)

/-- `re.sub(cls+, r, s)` for a character class: replace every maximal run of
characters satisfying `p` by the single character `r`.  The flag `inRun`
records whether the previous character belonged to a run. -/
def replaceRunsAux (p : Char → Bool) (r : Char) : Bool → Str → Str
  | _, [] => []
  | inRun, c :: cs =>
    if p c then
      if inRun then replaceRunsAux p r true cs
      else r :: replaceRunsAux p r true cs
    else c :: replaceRunsAux p r false cs

/-- `re.sub(r"[cls]+", r, s)`: collapse each maximal run of class characters
to one replacement character. -/
def replaceRuns (p : Char → Bool) (r : Char) (s : Str) : Str :=
  replaceRunsAux p r false s

/-- Python `str.strip(c)`: drop leading and trailing occurrences of `c`. -/
def stripChar (c : Char) (l : Str) : Str :=
  (((l.dropWhile (· == c)).reverse).dropWhile (· == c)).reverse

/-- `sanitize_workspace_name` (src/claudectl/core/workspaces.py):
1. `re.sub(r"[/\\]+", "-", name)` — path separators to hyphens;
2. `re.sub(r"[_\s]+", "-", name)` — underscores/whitespace to hyphens;
3. `re.sub(r"[^a-zA-Z0-9\-.]", "", name)` — drop remaining unsafe chars;
4. `name.strip("-")` — trim leading/trailing hyphens. -/
def sanitize_workspace_name (branch_name : Str) : Str :=
  let n1 := replaceRuns isPathSep '-' branch_name
  let n2 := replaceRuns isUnderscoreOrWs '-' n1
  let n3 := n2.filter safeChar
  stripChar '-' n3

example : sanitize_workspace_name "feature/auth-api".data = "feature-auth-api".data := by decide
example : sanitize_workspace_name "feat/BS 123_new".data = "feat-BS-123-new".data := by decide
example : sanitize_workspace_name "___".data = [] := by decide
example : sanitize_workspace_name "a//b".data = "a-b".data := by decide

/-! ## Workspace entity (src/claudectl/core/workspaces.py, class Workspace) -/

/-- Python substring containment `needle in hay` (for `str`): `needle`
occurs contiguously somewhere in `hay`. -/
def substrIn (needle : Str) : Str → Bool
  | [] => needle.isEmpty
  | c :: rest => needle.isPrefixOf (c :: rest) || substrIn needle rest

/-- The `Workspace` dataclass.  `path` and `repo_root` are Python `Path`
values, modelled by their string rendering; `branch` is `str | None`. -/
structure Workspace where
  path : Str
  branch : Option Str
  commit : Str
  is_main : Bool
  repo_root : Str
  deriving DecidableEq

/-- `Workspace.is_managed`: the source checks
`".claude/workspaces" in str(self.path)` — Python substring containment. -/
def Workspace.is_managed (w : Workspace) : Bool :=
  substrIn (".claude/workspaces".data) w.path

/-- Modelled from the spec's words, for comparison with `Workspace.is_managed`
(refinement check for the `is_managed` convention claim): "`is_managed`: true
iff `path` falls under a fixed convention: `<home>/.claude/workspaces/<repo-name>/`",
i.e. the path starts with that directory. -/
def managedByConvention (home repoName : Str) (w : Workspace) : Bool :=
  (home ++ "/.claude/workspaces/".data ++ repoName ++ ['/']).isPrefixOf w.path

/-! ## Porcelain worktree-list parsing (parse_worktree_list) -/

/-- The mutable `current: dict` of the parsing loop: the three keys it can
hold, each absent until the corresponding line is seen. -/
structure WtFields where
  path : Option Str := none
  commit : Option Str := none
  branch : Option Str := none
  deriving DecidableEq

/-- Python truthiness of the `current` dict: nonempty iff some key was set. -/
def WtFields.nonempty (f : WtFields) : Bool :=
  f.path.isSome || f.commit.isSome || f.branch.isSome

/-- Building a `Workspace` from the accumulated fields at a flush point:
`current.get("path", Path())` (the empty path, modelled as `[]`; never
reached for porcelain output, whose groups always open with a
`worktree ` line), `current.get("branch")`, `current.get("commit", "")`,
`is_main = len(worktrees) == 0`. -/
def mkWorkspace (f : WtFields) (isMain : Bool) (repoRoot : Str) : Workspace :=
  { path := f.path.getD []
    branch := f.branch
    commit := f.commit.getD []
    is_main := isMain
    repo_root := repoRoot }

/-- The loop body of `parse_worktree_list`, over the list of lines of the
porcelain output (Python iterates `output.splitlines()`; lines are taken as
input here).  `line.split(" ", 1)[1]` on a line that passed
`startswith("worktree ")` is the text after that 9-character opener, hence
`List.drop 9`; similarly `drop 5` after `HEAD ` and `drop 7` after
`branch `, with `refs/heads/` (11 characters) stripped when present.
A blank line flushes a nonempty `current`; other lines are ignored;
a nonempty `current` is flushed once more after the loop. -/
def parseLinesAux (repoRoot : Str) : List Str → WtFields → List Workspace → List Workspace
  | [], cur, acc =>
    if cur.nonempty then acc ++ [mkWorkspace cur acc.isEmpty repoRoot] else acc
  | line :: rest, cur, acc =>
    if ("worktree ".data).isPrefixOf line then
      parseLinesAux repoRoot rest { cur with path := some (line.drop 9) } acc
    else if ("HEAD ".data).isPrefixOf line then
      parseLinesAux repoRoot rest { cur with commit := some ((line.drop 5).take 8) } acc
    else if ("branch ".data).isPrefixOf line then
      let ref := line.drop 7
      let b := if ("refs/heads/".data).isPrefixOf ref then ref.drop 11 else ref
      parseLinesAux repoRoot rest { cur with branch := some b } acc
    else if line = [] && cur.nonempty then
      parseLinesAux repoRoot rest {} (acc ++ [mkWorkspace cur acc.isEmpty repoRoot])
    else
      parseLinesAux repoRoot rest cur acc

/-- `parse_worktree_list(output, repo_root)`, over the lines of `output`. -/
def parse_worktree_list (lines : List Str) (repoRoot : Str) : List Workspace :=
  parseLinesAux repoRoot lines {} []

/-! ## Discovery (discover_workspaces) -/

/-- `subprocess.CalledProcessError`, raised by `subprocess.run(check=True)`
when git exits nonzero. -/
structure CalledProcessError where
  returncode : Int
  stderr : Str
  deriving DecidableEq

/-- `discover_workspaces(repo_root)`: run `git worktree list --porcelain`
(its outcome is the `gitResult` input — stdout lines on success) and parse;
a `CalledProcessError` is caught and yields `[]`. -/
def discover_workspaces (repoRoot : Str)
    (gitResult : Except CalledProcessError (List Str)) : List Workspace :=
  match gitResult with
  | .ok lines => parse_worktree_list lines repoRoot
  | .error _ => []

/-! ## Git query layer (src/claudectl/domain/git.py) -/

/-- The exceptions that `is_worktree_clean` anticipates and catches:
`git.InvalidGitRepositoryError` (the path is not a valid repository) and
`git.exc.GitCommandError` (a git query failed).  `msg` stands for `str(e)`. -/
inductive GitFailure where
  | invalidGitRepository (msg : Str)
  | gitCommandError (msg : Str)
  deriving DecidableEq

/-- `str(e)` of the caught exception. -/
def GitFailure.message : GitFailure → Str
  | .invalidGitRepository m => m
  | .gitCommandError m => m

/-- What `Repo(worktree_path)` exposes to `is_worktree_clean` on success:
`repo.is_dirty(untracked_files=False)`,
`len(repo.index.diff(None)) + len(repo.index.diff("HEAD"))` (modified
count), and `len(repo.untracked_files)`. -/
structure RepoView where
  isDirty : Bool
  modifiedCount : Nat
  untrackedCount : Nat
  deriving DecidableEq

/-- `is_worktree_clean(worktree_path)`: the git interaction (constructing
`Repo` and querying it) is the `q` input; the two anticipated exception
types are caught and reported as a dirty status.  Messages mirror the
source's f-strings. -/
def is_worktree_clean (q : Except GitFailure RepoView) : Bool × Str :=
  match q with
  | .error e => (false, "Failed to check status: ".data ++ e.message)
  | .ok v =>
    if v.isDirty then
      let parts : List Str :=
        (if v.modifiedCount ≠ 0 then [(Nat.repr v.modifiedCount).data ++ " modified".data] else [])
          ++ (if v.untrackedCount ≠ 0 then [(Nat.repr v.untrackedCount).data ++ " untracked".data] else [])
      (false, (", ".intercalate (parts.map String.mk)).data)
    else if v.untrackedCount ≠ 0 then
      (false, (Nat.repr v.untrackedCount).data ++ " untracked".data)
    else
      (true, "Clean".data)

/-! ## Deterministic workspace paths (core/workspaces.py) -/

/-- `Path.name`: the final path component. -/
def baseName (p : Str) : Str :=
  (p.reverse.takeWhile (fun c => !(c == '/'))).reverse

/-- `Path.parent`: everything before the final `/`.  (The roots-only edge
cases of `pathlib` — `Path("/").parent`, `Path("x").parent` — are not
exercised by the manager, whose paths always live several levels under the
home directory.) -/
def parentPath (p : Str) : Str :=
  ((p.reverse.dropWhile (fun c => !(c == '/'))).tail).reverse

/-- `~/.claude/workspaces/<repo-name>` — the managed-workspaces base
directory for a repository (`get_workspaces_base_path`). -/
def workspacesBase (home repoName : Str) : Str :=
  home ++ "/.claude/workspaces/".data ++ repoName

/-- `pathlib` join with a final component that contains no separator:
an empty component is dropped (`Path("/a") / "" == Path("/a")`). -/
def joinLast (p name : Str) : Str :=
  if name = [] then p else p ++ '/' :: name

/-- `get_workspace_path(branch_name, repo_root)`:
`Path.home() / ".claude" / "workspaces" / repo_root.name / sanitized`. -/
def get_workspace_path (home repoRoot branch : Str) : Str :=
  joinLast (workspacesBase home (baseName repoRoot)) (sanitize_workspace_name branch)

/-! ## Workspace manager (src/claudectl/operations/workspace_ops.py)

The state a manager call observes and mutates: the filesystem (set of
existing paths), git's worktree list (what `discover_workspaces` would
parse), the branch lists, the current branch, the per-path cleanliness
answer of `is_worktree_clean`, and whether the underlying
`git worktree add`/`remove` subprocess fails (`CalledProcessError`). -/
structure GitState where
  existingPaths : List Str
  worktrees : List Workspace
  localBranches : List Str
  remoteBranches : List Str
  currentBranch : Option Str
  clean : Str → Bool × Str
  gitFail : Bool

/-- The error taxonomy of workspace_ops.py (`WorkspaceError` and its three
subclasses). -/
inductive WsError where
  | workspaceExists
  | branchInUse
  | workspaceNotFound
  | workspaceError
  deriving DecidableEq

/-- `find_workspace_by_branch`: linear scan of the discovered worktrees for
`workspace.branch == branch` (a detached worktree has `branch = None` and
never matches). -/
def find_workspace_by_branch (st : GitState) (branch : Str) : Option Workspace :=
  st.worktrees.find? (fun w => w.branch == some branch)

/-- `branch_exists(branch)`: local branches, then `origin` refs
(`remoteBranches` is empty when no origin remote is configured). -/
def branch_exists (st : GitState) (branch : Str) : Bool :=
  st.localBranches.contains branch || st.remoteBranches.contains branch

/-- `get_current_branch() or "HEAD"`, and the `if not base_branch:` guard —
Python falsiness treats both `None` and `""` as absent. -/
def resolveBase (st : GitState) (base : Option Str) : Str :=
  let cur := match st.currentBranch with
    | some b => if b = [] then "HEAD".data else b
    | none => "HEAD".data
  match base with
  | some b => if b = [] then cur else b
  | none => cur

/-- `WorkspaceManager.create_workspace(branch, base_branch)`.  Returns the
Python result (value or raised error) together with the post-call state.
The commit hash git would report for the fresh worktree is not tracked by
this state model; the created entry carries an empty commit field.  The
resolved base ref only selects that commit, so it does not appear in the
state either. -/
def create_workspace (home : Str) (st : GitState) (repoRoot branch : Str)
    (_base : Option Str) : Except WsError Workspace × GitState :=
  let wp := get_workspace_path home repoRoot branch
  if st.existingPaths.contains wp then
    (.error .workspaceExists, st)
  else
    match find_workspace_by_branch st branch with
    | some _ => (.error .branchInUse, st)
    | none =>
      -- workspace_path.parent.mkdir(parents=True, exist_ok=True)
      let st1 : GitState := { st with existingPaths := parentPath wp :: st.existingPaths }
      if st.gitFail then
        -- subprocess.CalledProcessError wrapped as WorkspaceError
        (.error .workspaceError, st1)
      else
        let newWt : Workspace :=
          { path := wp, branch := some branch, commit := [], is_main := false
            repo_root := repoRoot }
        let st2 : GitState :=
          if branch_exists st branch then
            { st1 with worktrees := st1.worktrees ++ [newWt]
                       existingPaths := wp :: st1.existingPaths }
          else
            -- `git worktree add -b branch path base` also creates the branch
            { st1 with worktrees := st1.worktrees ++ [newWt]
                       existingPaths := wp :: st1.existingPaths
                       localBranches := branch :: st1.localBranches }
        match find_workspace_by_branch st2 branch with
        | some w => (.ok w, st2)
        | none => (.error .workspaceError, st2)

/-- `WorkspaceManager.delete_workspace(branch, force)`.  `get_workspace`
propagates `WorkspaceNotFound`; without `force` a dirty workspace
(per `workspace.is_clean`, i.e. `st.clean`) raises `WorkspaceError`;
then `git worktree remove [--force]` runs (failure wrapped as
`WorkspaceError`), and an empty parent directory is removed best-effort. -/
def delete_workspace (st : GitState) (branch : Str) (force : Bool) :
    Except WsError Bool × GitState :=
  match find_workspace_by_branch st branch with
  | none => (.error .workspaceNotFound, st)
  | some w =>
    if !force && !(st.clean w.path).1 then
      (.error .workspaceError, st)
    else if st.gitFail then
      (.error .workspaceError, st)
    else
      let paths1 := st.existingPaths.erase w.path
      let parent := parentPath w.path
      let paths2 :=
        if paths1.contains parent
            && !(paths1.any fun p => (parent ++ ['/']).isPrefixOf p) then
          paths1.erase parent
        else paths1
      (.ok true, { st with worktrees := st.worktrees.erase w, existingPaths := paths2 })

/-! ## Workspace status (WorkspaceManager.get_workspace_status) -/

/-- Python `str.strip()` with no argument: drop leading and trailing
whitespace. -/
def pyStrip (l : Str) : Str :=
  ((l.dropWhile isPyWhitespace).reverse.dropWhile isPyWhitespace).reverse

/-- Accumulator form of Python `str.split()` with no argument: split on
runs of whitespace, discarding empty pieces.  `cur` holds the current token
reversed. -/
def splitWsAux : Str → Str → List Str → List Str
  | [], cur, acc => if cur = [] then acc else acc ++ [cur.reverse]
  | c :: cs, cur, acc =>
    if isPyWhitespace c then
      if cur = [] then splitWsAux cs [] acc else splitWsAux cs [] (acc ++ [cur.reverse])
    else splitWsAux cs (c :: cur) acc

/-- Python `str.split()` with no argument. -/
def pySplitWs (l : Str) : List Str := splitWsAux l [] []

/-- Digit-sequence tail of a Python integer literal: digits, with single
underscores allowed only between digits. -/
def pyDigitsRest : Str → Bool
  | [] => true
  | '_' :: c :: cs => c.isDigit && pyDigitsRest cs
  | c :: cs => c.isDigit && pyDigitsRest cs

/-- A valid unsigned digit sequence for Python `int(str)`: nonempty, first
character a digit, then `pyDigitsRest`. -/
def pyDigitsOK : Str → Bool
  | [] => false
  | c :: cs => c.isDigit && pyDigitsRest cs

/-- Numeric value of a valid digit sequence (underscores skipped). -/
def digitsToNat (l : Str) : Nat :=
  (l.filter (fun c => !(c == '_'))).foldl (fun n c => 10 * n + (c.toNat - 48)) 0

/-- Python `int(s)` for a decimal string: strips surrounding whitespace,
accepts an optional sign, then a digit sequence; raises `ValueError`
(here: `none`) otherwise.  (Non-decimal spellings never occur in the git
output being parsed.) -/
def pyInt (s : Str) : Option Int :=
  match pyStrip s with
  | '+' :: ds => if pyDigitsOK ds then some (digitsToNat ds) else none
  | '-' :: ds => if pyDigitsOK ds then some (-(digitsToNat ds : Int)) else none
  | ds => if pyDigitsOK ds then some (digitsToNat ds) else none

/-- The `CompletedProcess` of the `check=False` rev-list invocation. -/
structure RevListResult where
  returncode : Int
  stdout : Str

/-- The `ahead_behind` dictionary. -/
structure AheadBehind where
  ahead : Int
  behind : Int
  deriving DecidableEq

/-- The dictionary returned by `get_workspace_status`. -/
structure WorkspaceStatus where
  path : Str
  branch : Option Str
  commit : Str
  is_clean : Bool
  status : Str
  ahead_behind : Option AheadBehind

/-- `WorkspaceManager.get_workspace_status(workspace)`: cleanliness from
`workspace.is_clean` (whose git interaction is the `cleanQ` input), then —
only for a workspace with a branch — `git rev-list --left-right --count
origin/<branch>...HEAD` run with `check=False` (its completed process is
`rev`).  `parts = stdout.strip().split()`; with returncode 0 and exactly
two integer parts, `behind, ahead = int(parts[0]), int(parts[1])`; any
failure inside the `try` (nonzero exit is skipped explicitly, a parse
error raises and is swallowed by `except Exception`) leaves
`ahead_behind = None`. -/
def get_workspace_status (w : Workspace) (cleanQ : Except GitFailure RepoView)
    (rev : RevListResult) : WorkspaceStatus :=
  let ic := is_worktree_clean cleanQ
  let ab : Option AheadBehind :=
    match w.branch with
    | none => none
    | some _ =>
      if rev.returncode = 0 then
        match pySplitWs (pyStrip rev.stdout) with
        | [p0, p1] =>
          match pyInt p0, pyInt p1 with
          | some behind, some ahead => some { ahead := ahead, behind := behind }
          | _, _ => none
        | _ => none
      else none
  { path := w.path, branch := w.branch, commit := w.commit
    is_clean := ic.1, status := ic.2, ahead_behind := ab }

/-! ## Context copier (src/claudectl/operations/context.py) -/

/-- Filesystem paths for the copier, as component lists (how `pathlib`
composes them with `/`). -/
abbrev FsPath := List String

/-- File contents by path; `none` = the file does not exist. -/
abbrev FileStore := FsPath → Option String

/-- Point update of a `FileStore` (the effect of `shutil.copy2`). -/
def fsUpdate (fs : FileStore) (p : FsPath) (v : Option String) : FileStore :=
  fun q => if q = p then v else fs q

/-- The fixed `files_to_copy` list of `copy_claude_context`:
`.claude/settings.local.json` and `CLAUDE.md`, relative to the repo root. -/
def files_to_copy : List FsPath :=
  [[".claude", "settings.local.json"], ["CLAUDE.md"]]

/-- `copy_claude_context(workspace_path, source_root)`: for each fixed
relative path, copy `source_root/rel` to `workspace_path/rel` only if the
source exists and the destination does not (`mkdir` of the destination
parent does not change the file store); returns the relative paths copied,
in order, together with the resulting file store. -/
def copy_claude_context (workspacePath sourceRoot : FsPath) (fs : FileStore) :
    List FsPath × FileStore :=
  files_to_copy.foldl
    (fun acc rel =>
      let src := sourceRoot ++ rel
      let dst := workspacePath ++ rel
      if (acc.2 src).isSome && (acc.2 dst).isNone then
        (acc.1 ++ [rel], fsUpdate acc.2 dst (acc.2 src))
      else acc)
    ([], fs)

/-! ## Porcelain group rendering (for the discovery-ordering claim)

A porcelain worktree listing is a sequence of groups separated by blank
lines; each group opens with a `worktree ` line, carries a `HEAD ` line,
and — except for detached-HEAD worktrees — a `branch refs/heads/<name>`
line.  `WtGroup` is the abstract content of one group and `joinGroups`
renders a listing from it; the parser is then checked against this
rendering. -/

/-- Abstract content of one porcelain group. -/
structure WtGroup where
  path : Str
  commit : Str
  branch : Option Str

/-- The lines of one porcelain group. -/
def renderGroup (g : WtGroup) : List Str :=
  ("worktree ".data ++ g.path) :: ("HEAD ".data ++ g.commit) ::
    (match g.branch with
     | some b => [("branch refs/heads/".data ++ b)]
     | none => [])

/-- Groups separated by single blank lines, with no trailing blank line
(so the final group exercises the post-loop flush). -/
def joinGroups : List WtGroup → List Str
  | [] => []
  | [g] => renderGroup g
  | g :: gs => renderGroup g ++ ([] : Str) :: joinGroups gs

/-- The workspace a group should parse to: path and branch verbatim,
commit truncated to 8 characters, `is_main` as given. -/
def groupWorkspace (g : WtGroup) (isMain : Bool) (repoRoot : Str) : Workspace :=
  { path := g.path, branch := g.branch, commit := g.commit.take 8
    is_main := isMain, repo_root := repoRoot }

/-- The expected parse of a group list: first group gets the `isMain` flag,
the rest are never main. -/
def expectedWorkspaces (repoRoot : Str) : Bool → List WtGroup → List Workspace
  | _, [] => []
  | isMain, g :: gs =>
    groupWorkspace g isMain repoRoot :: expectedWorkspaces repoRoot false gs

/-! ## Parser stepping lemmas -/

lemma parse_line_worktree (root p : Str) (rest : List Str) (cur : WtFields)
    (acc : List Workspace) :
    parseLinesAux root
        (('w' :: 'o' :: 'r' :: 'k' :: 't' :: 'r' :: 'e' :: 'e' :: ' ' :: p) :: rest) cur acc
      = parseLinesAux root rest { cur with path := some p } acc := by
  simp [parseLinesAux, List.isPrefixOf]

lemma parse_line_head (root c : Str) (rest : List Str) (cur : WtFields)
    (acc : List Workspace) :
    parseLinesAux root (('H' :: 'E' :: 'A' :: 'D' :: ' ' :: c) :: rest) cur acc
      = parseLinesAux root rest { cur with commit := some (c.take 8) } acc := by
  simp [parseLinesAux, List.isPrefixOf]

lemma parse_line_branch (root b : Str) (rest : List Str) (cur : WtFields)
    (acc : List Workspace) :
    parseLinesAux root
        (('b' :: 'r' :: 'a' :: 'n' :: 'c' :: 'h' :: ' ' ::
          'r' :: 'e' :: 'f' :: 's' :: '/' :: 'h' :: 'e' :: 'a' :: 'd' :: 's' :: '/' :: b)
          :: rest) cur acc
      = parseLinesAux root rest { cur with branch := some b } acc := by
  simp [parseLinesAux, List.isPrefixOf]

lemma parse_line_blank (root : Str) (rest : List Str) (cur : WtFields)
    (acc : List Workspace) :
    parseLinesAux root (([] : Str) :: rest) cur acc
      = if cur.nonempty then
          parseLinesAux root rest {} (acc ++ [mkWorkspace cur acc.isEmpty root])
        else parseLinesAux root rest cur acc := by
  simp [parseLinesAux, List.isPrefixOf]

lemma parse_end (root : Str) (cur : WtFields) (acc : List Workspace) :
    parseLinesAux root [] cur acc
      = if cur.nonempty then acc ++ [mkWorkspace cur acc.isEmpty root] else acc := by
  simp [parseLinesAux]

lemma joinGroups_cons_cons (g g' : WtGroup) (gs : List WtGroup) :
    joinGroups (g :: g' :: gs) = renderGroup g ++ ([] : Str) :: joinGroups (g' :: gs) := by
  simp [joinGroups]

/-- Parsing the rendered groups, from an arbitrary already-flushed
accumulator: each group appends exactly its `groupWorkspace`, main iff the
accumulator was still empty. -/
lemma parse_joinGroups (root : Str) :
    ∀ (gs : List WtGroup) (acc : List Workspace),
      parseLinesAux root (joinGroups gs) {} acc
        = acc ++ expectedWorkspaces root acc.isEmpty gs := by
  intro gs
  induction gs with
  | nil => intro acc; simp [joinGroups, parse_end, expectedWorkspaces, WtFields.nonempty]
  | cons g gs ih =>
    intro acc
    have hne : ∀ w : Workspace, (acc ++ [w]).isEmpty = false := by
      intro w; cases acc <;> rfl
    cases gs with
    | nil =>
      rcases hb : g.branch with _ | b <;>
        simp [joinGroups, renderGroup, hb, parse_line_worktree, parse_line_head,
          parse_line_branch, parse_end, WtFields.nonempty, expectedWorkspaces,
          mkWorkspace, groupWorkspace]
    | cons g' gs' =>
      rw [joinGroups_cons_cons]
      rcases hb : g.branch with _ | b
      · simp only [renderGroup, hb, List.cons_append, List.nil_append]
        rw [parse_line_worktree, parse_line_head, parse_line_blank]
        simp only [WtFields.nonempty, Option.isSome_some, Bool.true_or, Bool.or_true,
          if_true]
        rw [ih]
        simp [hne, expectedWorkspaces, mkWorkspace, groupWorkspace, hb]
      · simp only [renderGroup, hb, List.cons_append, List.nil_append]
        rw [parse_line_worktree, parse_line_head, parse_line_branch, parse_line_blank]
        simp only [WtFields.nonempty, Option.isSome_some, Bool.true_or, Bool.or_true,
          if_true]
        rw [ih]
        simp [hne, expectedWorkspaces, mkWorkspace, groupWorkspace, hb]

/-! ## List helper lemmas -/

lemma head?_dropWhile {α} (p : α → Bool) (l : List α) {a : α}
    (h : (l.dropWhile p).head? = some a) : p a = false := by
  induction l with
  | nil => simp [List.dropWhile] at h
  | cons x xs ih =>
    rw [List.dropWhile_cons] at h
    by_cases hp : p x = true
    · exact ih (by simpa [hp] using h)
    · have hx : x = a := by simpa [hp] using h
      subst hx
      simpa using hp

lemma head?_append_some {α} {l t : List α} {a : α} (h : l.head? = some a) :
    (l ++ t).head? = some a := by
  cases l <;> simp_all

lemma isPrefixOf_append_self (l t : Str) : l.isPrefixOf (l ++ t) = true := by
  induction l with
  | nil => simp [List.isPrefixOf]
  | cons a as ih => simp [List.isPrefixOf, ih]

lemma eq_append_of_isPrefixOf : ∀ {l s : Str}, l.isPrefixOf s = true → ∃ t, s = l ++ t := by
  intro l
  induction l with
  | nil => exact fun {s} _ => ⟨s, rfl⟩
  | cons a as ih =>
    intro s h
    cases s with
    | nil => simp [List.isPrefixOf] at h
    | cons b bs =>
      simp only [List.isPrefixOf, Bool.and_eq_true, beq_iff_eq] at h
      obtain ⟨t, ht⟩ := ih h.2
      exact ⟨t, by simp [h.1, ht]⟩

lemma substrIn_of_isPrefixOf {needle s : Str} (h : needle.isPrefixOf s = true) :
    substrIn needle s = true := by
  cases s with
  | nil =>
    cases needle with
    | nil => rfl
    | cons c cs => simp [List.isPrefixOf] at h
  | cons c rest => simp [substrIn, h]

lemma substrIn_cons {needle : Str} (c : Char) {rest : Str}
    (h : substrIn needle rest = true) : substrIn needle (c :: rest) = true := by
  simp [substrIn, h]

lemma substrIn_append_left {needle s : Str} (pre : Str)
    (h : substrIn needle s = true) : substrIn needle (pre ++ s) = true := by
  induction pre with
  | nil => simpa using h
  | cons c cs ih => simpa using substrIn_cons c ih

/-! ## Sanitizer character lemmas -/

lemma mem_of_mem_stripChar {ch : Char} {l : Str} {c : Char}
    (h : c ∈ stripChar ch l) : c ∈ l := by
  unfold stripChar at h
  rw [List.mem_reverse] at h
  have h1 := List.Sublist.mem h (List.dropWhile_sublist _)
  rw [List.mem_reverse] at h1
  exact List.Sublist.mem h1 (List.dropWhile_sublist _)

lemma stripChar_head {ch : Char} {l : Str} {a : Char}
    (h : (stripChar ch l).head? = some a) : (a == ch) = false := by
  have hdec := List.takeWhile_append_dropWhile (· == ch) (l.dropWhile (· == ch)).reverse
  have hA : l.dropWhile (· == ch) = stripChar ch l
      ++ ((l.dropWhile (· == ch)).reverse.takeWhile (· == ch)).reverse := by
    calc l.dropWhile (· == ch)
        = (l.dropWhile (· == ch)).reverse.reverse := by rw [List.reverse_reverse]
      _ = ((l.dropWhile (· == ch)).reverse.takeWhile (· == ch)
            ++ (l.dropWhile (· == ch)).reverse.dropWhile (· == ch)).reverse := by rw [hdec]
      _ = _ := by rw [List.reverse_append]; rfl
  have hhead : (l.dropWhile (· == ch)).head? = some a := by
    rw [hA]; exact head?_append_some h
  simpa using head?_dropWhile (fun x => x == ch) l hhead

lemma stripChar_getLast {ch : Char} {l : Str} {a : Char}
    (h : (stripChar ch l).getLast? = some a) : (a == ch) = false := by
  unfold stripChar at h
  rw [List.getLast?_reverse] at h
  simpa using head?_dropWhile (fun x => x == ch) _ h

lemma safeChar_of_mem_sanitize {s : Str} {c : Char}
    (h : c ∈ sanitize_workspace_name s) : safeChar c = true := by
  unfold sanitize_workspace_name at h
  have := mem_of_mem_stripChar h
  exact (List.mem_filter.mp this).2

lemma safeChar_ne_slash {c : Char} (h : safeChar c = true) : (c == '/') = false := by
  rcases hcb : (c == '/') with _ | _
  · rfl
  · exfalso
    have hc : c = '/' := beq_iff_eq.mp hcb
    subst hc
    exact absurd h (by decide)

lemma safeChar_not_ws {c : Char} (h : safeChar c = true) : isPyWhitespace c = false := by
  have hn := h
  simp only [safeChar, Bool.or_eq_true, Bool.and_eq_true, decide_eq_true_eq] at hn
  rcases hcw : isPyWhitespace c with _ | _
  · rfl
  · exfalso
    simp only [isPyWhitespace, Bool.or_eq_true, Bool.and_eq_true, decide_eq_true_eq] at hcw
    omega

/-! ## Expected-parse index lemmas -/

lemma expectedWorkspaces_length (root : Str) (m : Bool) (gs : List WtGroup) :
    (expectedWorkspaces root m gs).length = gs.length := by
  induction gs generalizing m with
  | nil => simp [expectedWorkspaces]
  | cons g gs ih => simp [expectedWorkspaces, ih]

lemma expected_false_isMain (root : Str) (gs : List WtGroup) :
    ∀ i : Nat, ((expectedWorkspaces root false gs)[i]?.map Workspace.is_main)
      = if i < gs.length then some false else none := by
  induction gs with
  | nil => intro i; simp [expectedWorkspaces]
  | cons g gs ih =>
    intro i
    cases i with
    | zero => simp [expectedWorkspaces, groupWorkspace]
    | succ j => simp [expectedWorkspaces, ih j, Nat.succ_lt_succ_iff]

/-! ## Claim theorems -/

/-- **C5.** For a porcelain listing of `N` groups separated by blank lines
(and no trailing blank line, so the final group exercises the post-loop
flush), `parse_worktree_list` returns exactly `N` workspaces in input
order: workspace `i` carries group `i`'s worktree path, its `HEAD ` commit
truncated to 8 characters, and its `branch ` value with the `refs/heads/`
prefix stripped (absent branch line ⇒ absent branch); `is_main` is true
exactly at index 0. -/
theorem parse_worktree_list_renders_groups (root : Str) (gs : List WtGroup) :
    parse_worktree_list (joinGroups gs) root = expectedWorkspaces root true gs
    ∧ (parse_worktree_list (joinGroups gs) root).length = gs.length
    ∧ (∀ i : Nat, (parse_worktree_list (joinGroups gs) root)[i]?.map Workspace.is_main
        = if i < gs.length then some (decide (i = 0)) else none) := by
  have heq : parse_worktree_list (joinGroups gs) root = expectedWorkspaces root true gs := by
    simpa [parse_worktree_list] using parse_joinGroups root gs []
  refine ⟨heq, ?_, ?_⟩
  · rw [heq, expectedWorkspaces_length]
  · intro i
    rw [heq]
    cases gs with
    | nil => simp [expectedWorkspaces]
    | cons g gs' =>
      cases i with
      | zero => simp [expectedWorkspaces, groupWorkspace]
      | succ j =>
        simp [expectedWorkspaces, expected_false_isMain root gs' j, Nat.succ_lt_succ_iff]

/-- **C7.** `discover_workspaces` returns `[]`, rather than propagating an
error, whenever the `git worktree list --porcelain` invocation fails
(`CalledProcessError`); being a total function it raises nothing. -/
theorem discover_workspaces_failure_empty (root : Str) (e : CalledProcessError) :
    discover_workspaces root (.error e) = [] := rfl

/-- Concrete workspace whose path contains `.claude/workspaces` without
lying under the convention directory of home `/home/user`, repo `myrepo`. -/
def wsOutsideHome : Workspace :=
  { path := "/tmp/.claude/workspaces/evil/x".data
    branch := some "b".data
    commit := "abcdef12".data
    is_main := false
    repo_root := "/repo".data }

/-- **C1, counterexample.** The claim "`is_managed` is true iff the path
falls under `<home>/.claude/workspaces/<repo-name>/`" fails: the source's
substring test accepts `/tmp/.claude/workspaces/evil/x`, which does not
lie under `/home/user/.claude/workspaces/myrepo/`. -/
theorem is_managed_counterexample :
    wsOutsideHome.is_managed = true
    ∧ managedByConvention "/home/user".data "myrepo".data wsOutsideHome = false := by
  constructor <;> decide

/-- **C1, amended.** `is_managed` is true iff the string
`.claude/workspaces` occurs as a substring of the workspace's path; in
particular every path under `<home>/.claude/workspaces/<repo-name>/` is
classified as managed, but the check is not anchored to the home
directory or the repository name. -/
theorem is_managed_amended :
    (∀ w : Workspace, w.is_managed = substrIn (".claude/workspaces".data) w.path)
    ∧ (∀ (home repoName : Str) (w : Workspace),
        managedByConvention home repoName w = true → w.is_managed = true) := by
  constructor
  · intro w; rfl
  · intro home repoName w h
    obtain ⟨t, ht⟩ := eq_append_of_isPrefixOf (show _ = true from h)
    unfold Workspace.is_managed
    rw [ht]
    have hsplit : "/.claude/workspaces/".data
        = '/' :: (".claude/workspaces".data ++ ['/']) := by decide
    have hlist : (home ++ "/.claude/workspaces/".data ++ repoName ++ ['/']) ++ t
        = home ++ '/' :: (".claude/workspaces".data ++ ('/' :: (repoName ++ '/' :: t))) := by
      rw [hsplit]; simp [List.append_assoc]
    rw [hlist]
    apply substrIn_append_left home
    apply substrIn_cons
    apply substrIn_of_isPrefixOf
    exact isPrefixOf_append_self _ _

/-- **C4.** For every branch name, `sanitize_workspace_name` produces a
string whose characters all lie in `[A-Za-z0-9-.]` — in particular no `/`
and no whitespace character — with no leading or trailing hyphen; and the
spec's two examples evaluate as stated. -/
theorem sanitize_safe_output :
    (∀ s : Str,
      (sanitize_workspace_name s).all
          (fun c => safeChar c && !(c == '/') && !(isPyWhitespace c)) = true
      ∧ (sanitize_workspace_name s).head?.all (fun c => !(c == '-')) = true
      ∧ (sanitize_workspace_name s).getLast?.all (fun c => !(c == '-')) = true)
    ∧ sanitize_workspace_name "feature/auth-api".data = "feature-auth-api".data
    ∧ sanitize_workspace_name "feat/BS 123_new".data = "feat-BS-123-new".data := by
  refine ⟨fun s => ⟨?_, ?_, ?_⟩, by decide, by decide⟩
  · rw [List.all_eq_true]
    intro c hc
    have hs := safeChar_of_mem_sanitize hc
    simp [hs, safeChar_ne_slash hs, safeChar_not_ws hs]
  · cases hh : (sanitize_workspace_name s).head? with
    | none => rfl
    | some a =>
      have ha : (a == '-') = false := stripChar_head hh
      simp [Option.all, ha]
  · cases hh : (sanitize_workspace_name s).getLast? with
    | none => rfl
    | some a =>
      have ha : (a == '-') = false := stripChar_getLast hh
      simp [Option.all, ha]

/-- **C2.** `create_workspace` fails with `WorkspaceExists` whenever the
deterministic target path already exists on disk, and — when it does not —
fails with `BranchInUse` whenever any existing worktree (managed or not)
already checks out the branch; in both cases the state (in particular the
worktree set) is returned unchanged, no worktree-add having been
attempted. -/
theorem create_workspace_collision_guard (home : Str) (st : GitState)
    (repoRoot branch : Str) (base : Option Str) :
    (st.existingPaths.contains (get_workspace_path home repoRoot branch) = true →
      create_workspace home st repoRoot branch base = (.error .workspaceExists, st))
    ∧ (st.existingPaths.contains (get_workspace_path home repoRoot branch) = false →
       (find_workspace_by_branch st branch).isSome = true →
      create_workspace home st repoRoot branch base = (.error .branchInUse, st)) := by
  constructor
  · intro h
    have h' : get_workspace_path home repoRoot branch ∈ st.existingPaths := by
      simpa using h
    simp [create_workspace, h']
  · intro h hfind
    have h' : get_workspace_path home repoRoot branch ∉ st.existingPaths := by
      simpa using h
    obtain ⟨w, hw⟩ := Option.isSome_iff_exists.mp hfind
    simp [create_workspace, h', hw]

/-- Cleanliness oracle answering "clean" for every path. -/
def cleanAll : Str → Bool × Str := fun _ => (true, "Clean".data)

/-- State for the `WorkspaceExists` witness: the deterministic path for
branch `feat-x` of repo `/repo/myrepo` (home `/home/user`) already exists. -/
def stPathTaken : GitState :=
  { existingPaths := ["/home/user/.claude/workspaces/myrepo/feat-x".data]
    worktrees := []
    localBranches := ["main".data]
    remoteBranches := []
    currentBranch := some "main".data
    clean := cleanAll
    gitFail := false }

/-- A worktree elsewhere on disk that has branch `b2` checked out. -/
def wtElsewhere : Workspace :=
  { path := "/elsewhere/b2".data
    branch := some "b2".data
    commit := "12345678".data
    is_main := false
    repo_root := "/repo/myrepo".data }

/-- State for the `BranchInUse` witness: branch `b2` is checked out at an
unmanaged path, and the deterministic target path is free. -/
def stBranchTaken : GitState :=
  { existingPaths := []
    worktrees := [wtElsewhere]
    localBranches := ["main".data, "b2".data]
    remoteBranches := []
    currentBranch := some "main".data
    clean := cleanAll
    gitFail := false }

theorem create_workspace_collision_guard_witness :
    create_workspace "/home/user".data stPathTaken "/repo/myrepo".data "feat-x".data none
      = (.error .workspaceExists, stPathTaken)
    ∧ create_workspace "/home/user".data stBranchTaken "/repo/myrepo".data "b2".data none
      = (.error .branchInUse, stBranchTaken) :=
  ⟨(create_workspace_collision_guard "/home/user".data stPathTaken
      "/repo/myrepo".data "feat-x".data none).1 (by decide),
   (create_workspace_collision_guard "/home/user".data stBranchTaken
      "/repo/myrepo".data "b2".data none).2 (by decide) (by decide)⟩

/-- **C3.** `delete_workspace` on a branch with no workspace fails with
`WorkspaceNotFound` (with or without force); on an existing dirty
workspace it fails with `WorkspaceError` without removing the worktree
(state unchanged) when `force = false`, while `force = true` on the same
workspace succeeds (provided the git subprocess itself does not fail). -/
theorem delete_workspace_guard (st : GitState) (branch : Str) :
    (find_workspace_by_branch st branch = none →
      delete_workspace st branch false = (.error .workspaceNotFound, st)
      ∧ delete_workspace st branch true = (.error .workspaceNotFound, st))
    ∧ (∀ w, find_workspace_by_branch st branch = some w →
        (st.clean w.path).1 = false →
        delete_workspace st branch false = (.error .workspaceError, st)
        ∧ (st.gitFail = false → (delete_workspace st branch true).1 = .ok true)) := by
  constructor
  · intro h
    exact ⟨by simp [delete_workspace, h], by simp [delete_workspace, h]⟩
  · intro w hw hdirty
    constructor
    · simp [delete_workspace, hw, hdirty]
    · intro hgit
      simp [delete_workspace, hw, hdirty, hgit]

/-- A managed workspace for branch `b` that is dirty (one untracked file). -/
def wtDirty : Workspace :=
  { path := "/home/user/.claude/workspaces/myrepo/b".data
    branch := some "b".data
    commit := "deadbeef".data
    is_main := false
    repo_root := "/repo/myrepo".data }

/-- State for the deletion-guard witness: `wtDirty` exists and is dirty;
no workspace exists for branch `zzz`. -/
def stDirty : GitState :=
  { existingPaths := ["/home/user/.claude/workspaces/myrepo/b".data]
    worktrees := [wtDirty]
    localBranches := ["main".data, "b".data]
    remoteBranches := []
    currentBranch := some "main".data
    clean := fun q =>
      if q = "/home/user/.claude/workspaces/myrepo/b".data
      then (false, "1 untracked".data) else (true, "Clean".data)
    gitFail := false }

theorem delete_workspace_guard_witness :
    delete_workspace stDirty "b".data false = (.error .workspaceError, stDirty)
    ∧ (delete_workspace stDirty "b".data true).1 = .ok true
    ∧ delete_workspace stDirty "zzz".data false = (.error .workspaceNotFound, stDirty) :=
  ⟨((delete_workspace_guard stDirty "b".data).2 wtDirty (by decide) (by decide)).1,
   ((delete_workspace_guard stDirty "b".data).2 wtDirty (by decide) (by decide)).2 rfl,
   ((delete_workspace_guard stDirty "zzz".data).1 (by decide)).1⟩

/-- **C10.** `is_worktree_clean` is total — it always returns a
(bool, message) pair, and both anticipated git failures (invalid
repository, failed git command) are reported as
`(false, "Failed to check status: …")`, i.e. classified as dirty; a
workspace whose cleanliness check fails that way is consequently rejected
by `delete_workspace` without force. -/
theorem is_worktree_clean_failure_dirty :
    (∀ q : Except GitFailure RepoView, ∃ b m, is_worktree_clean q = (b, m))
    ∧ (∀ e : GitFailure,
        is_worktree_clean (.error e)
          = (false, "Failed to check status: ".data ++ e.message))
    ∧ (∀ (st : GitState) (branch : Str) (w : Workspace) (e : GitFailure),
        find_workspace_by_branch st branch = some w →
        st.clean w.path = is_worktree_clean (.error e) →
        delete_workspace st branch false = (.error .workspaceError, st)) := by
  refine ⟨fun q => ⟨_, _, rfl⟩, fun e => rfl, ?_⟩
  intro st branch w e hw hclean
  have h1 : (st.clean w.path).1 = false := by rw [hclean]; rfl
  simp [delete_workspace, hw, h1]

/-- The git failure used in the totality witness. -/
def gitFailBoom : GitFailure := .invalidGitRepository "boom".data

/-- A worktree whose cleanliness check hits a git failure. -/
def wtBroken : Workspace :=
  { path := "/ws/broken".data
    branch := some "bk".data
    commit := "cafebabe".data
    is_main := false
    repo_root := "/repo/myrepo".data }

/-- State in which `wtBroken`'s cleanliness query fails. -/
def stBroken : GitState :=
  { existingPaths := ["/ws/broken".data]
    worktrees := [wtBroken]
    localBranches := ["bk".data]
    remoteBranches := []
    currentBranch := some "main".data
    clean := fun _ => is_worktree_clean (.error gitFailBoom)
    gitFail := false }

theorem is_worktree_clean_failure_dirty_witness :
    delete_workspace stBroken "bk".data false = (.error .workspaceError, stBroken) :=
  is_worktree_clean_failure_dirty.2.2 stBroken "bk".data wtBroken gitFailBoom
    (by decide) rfl

/-- When the target path is free, no worktree holds the branch, and git
itself does not fail, `create_workspace` reaches the worktree-add and
returns a workspace at exactly the deterministic target path — whatever
that path is; there is no guard against a degenerate (empty) sanitized
name. -/
lemma create_workspace_success_shape (home : Str) (st : GitState)
    (repoRoot branch : Str) (base : Option Str)
    (hnp : st.existingPaths.contains (get_workspace_path home repoRoot branch) = false)
    (hfind : find_workspace_by_branch st branch = none)
    (hgit : st.gitFail = false) :
    ∃ st', create_workspace home st repoRoot branch base
      = (.ok { path := get_workspace_path home repoRoot branch
               branch := some branch
               commit := []
               is_main := false
               repo_root := repoRoot }, st') := by
  have h' : get_workspace_path home repoRoot branch ∉ st.existingPaths := by
    simpa using hnp
  have hfind' : List.find? (fun w => w.branch == some branch) st.worktrees = none := by
    simpa [find_workspace_by_branch] using hfind
  cases hbe : branch_exists st branch <;>
    exact ⟨_, by
      simp [create_workspace, h', hfind, hgit, hbe, find_workspace_by_branch,
        List.find?_append, hfind']
      rfl⟩

/-- **C9.** The sanitizer can return the empty string — e.g. on a branch
name of only underscores — in which case the deterministic workspace path
degenerates to the bare base directory
`<home>/.claude/workspaces/<repo-name>` with no per-branch component, and
`create_workspace` performs no check against the empty sanitized name: it
proceeds to create the worktree at the bare base directory. -/
theorem empty_sanitized_name_degenerate_path :
    sanitize_workspace_name "___".data = []
    ∧ (∀ home repoRoot : Str,
        get_workspace_path home repoRoot "___".data
          = workspacesBase home (baseName repoRoot))
    ∧ (∀ (home : Str) (st : GitState) (repoRoot : Str) (base : Option Str),
        st.existingPaths.contains (workspacesBase home (baseName repoRoot)) = false →
        find_workspace_by_branch st "___".data = none →
        st.gitFail = false →
        ∃ st', create_workspace home st repoRoot "___".data base
          = (.ok { path := workspacesBase home (baseName repoRoot)
                   branch := some "___".data
                   commit := []
                   is_main := false
                   repo_root := repoRoot }, st')) := by
  have hsan : sanitize_workspace_name "___".data = [] := by decide
  have hwp : ∀ home repoRoot : Str,
      get_workspace_path home repoRoot "___".data
        = workspacesBase home (baseName repoRoot) := by
    intro home repoRoot
    simp [get_workspace_path, joinLast, hsan]
  refine ⟨hsan, hwp, ?_⟩
  intro home st repoRoot base hnp hfind hgit
  have := create_workspace_success_shape home st repoRoot "___".data base
    (by rw [hwp]; exact hnp) hfind hgit
  rwa [hwp] at this

/-- A fresh state: empty filesystem, no worktrees. -/
def stFresh : GitState :=
  { existingPaths := []
    worktrees := []
    localBranches := ["main".data]
    remoteBranches := []
    currentBranch := some "main".data
    clean := cleanAll
    gitFail := false }

theorem empty_sanitized_name_degenerate_path_witness :
    ∃ st', create_workspace "/home/user".data stFresh "/repo/myrepo".data "___".data none
      = (.ok { path := "/home/user/.claude/workspaces/myrepo".data
               branch := some "___".data
               commit := []
               is_main := false
               repo_root := "/repo/myrepo".data }, st') := by
  have hp : workspacesBase "/home/user".data (baseName "/repo/myrepo".data)
      = "/home/user/.claude/workspaces/myrepo".data := by decide
  rw [← hp]
  exact empty_sanitized_name_degenerate_path.2.2 "/home/user".data stFresh
    "/repo/myrepo".data none (by decide) (by decide) rfl

/-- **C8.** `get_workspace_status` is total (never raises) and always
returns the cleanliness data; the `ahead_behind` field is populated only
when the workspace has a branch, the rev-list invocation exits 0, and its
stdout strips-and-splits into exactly two parts that both parse as
integers (`behind` then `ahead`); a detached workspace, a nonzero exit, or
a parse failure yields `none` rather than an error. -/
theorem get_workspace_status_guarded (w : Workspace)
    (cleanQ : Except GitFailure RepoView) (rev : RevListResult) :
    ((get_workspace_status w cleanQ rev).is_clean = (is_worktree_clean cleanQ).1
      ∧ (get_workspace_status w cleanQ rev).status = (is_worktree_clean cleanQ).2)
    ∧ (w.branch = none → (get_workspace_status w cleanQ rev).ahead_behind = none)
    ∧ (rev.returncode ≠ 0 → (get_workspace_status w cleanQ rev).ahead_behind = none)
    ∧ (∀ ab, (get_workspace_status w cleanQ rev).ahead_behind = some ab →
        w.branch.isSome = true ∧ rev.returncode = 0
        ∧ ∃ p0 p1, pySplitWs (pyStrip rev.stdout) = [p0, p1]
            ∧ pyInt p0 = some ab.behind ∧ pyInt p1 = some ab.ahead) := by
  refine ⟨⟨rfl, rfl⟩, ?_, ?_, ?_⟩
  · intro h
    simp [get_workspace_status, h]
  · intro h
    cases hb : w.branch <;> simp [get_workspace_status, hb, h]
  · intro ab h
    have h' := h
    simp only [get_workspace_status] at h'
    cases hb : w.branch with
    | none => rw [hb] at h'; simp at h'
    | some b =>
      rw [hb] at h'
      simp only at h'
      by_cases hrc : rev.returncode = 0
      · rw [if_pos hrc] at h'
        refine ⟨by simp [hb], hrc, ?_⟩
        rcases hsp : pySplitWs (pyStrip rev.stdout) with _ | ⟨p0, _ | ⟨p1, _ | ⟨p2, rest⟩⟩⟩ <;>
          rw [hsp] at h'
        · simp at h'
        · simp at h'
        · cases hp0 : pyInt p0 with
          | none => simp [hp0] at h'
          | some i0 =>
            cases hp1 : pyInt p1 with
            | none => simp [hp0, hp1] at h'
            | some i1 =>
              simp only [hp0, hp1, Option.some.injEq] at h'
              subst h'
              exact ⟨p0, p1, rfl, by simpa using hp0, by simpa using hp1⟩
        · simp at h'
      · rw [if_neg hrc] at h'
        simp at h'

/-- A detached-HEAD workspace (no branch). -/
def wtDetached : Workspace :=
  { path := "/ws/detached".data
    branch := none
    commit := "0a1b2c3d".data
    is_main := false
    repo_root := "/repo/myrepo".data }

/-- A clean repository view for status queries. -/
def cleanOkQ : Except GitFailure RepoView := .ok { isDirty := false, modifiedCount := 0, untrackedCount := 0 }

theorem get_workspace_status_guarded_witness :
    (get_workspace_status wtDetached cleanOkQ
        { returncode := 0, stdout := "2\t3".data }).ahead_behind = none
    ∧ (get_workspace_status wtDirty cleanOkQ
        { returncode := 128, stdout := [] }).ahead_behind = none
    ∧ (∃ p0 p1, pySplitWs (pyStrip "2\t3".data) = [p0, p1]
        ∧ pyInt p0 = some (2 : Int) ∧ pyInt p1 = some (3 : Int)) :=
  ⟨(get_workspace_status_guarded wtDetached cleanOkQ _).2.1 rfl,
   (get_workspace_status_guarded wtDirty cleanOkQ _).2.2.1 (by decide),
   ((get_workspace_status_guarded wtDirty cleanOkQ
      { returncode := 0, stdout := "2\t3".data }).2.2.2
        { ahead := 3, behind := 2 } (by decide)).2.2⟩

/-! ## Context-copier lemmas -/

lemma fsUpdate_same (fs : FileStore) (p : FsPath) (v : Option String) :
    fsUpdate fs p v p = v := by simp [fsUpdate]

lemma copyPath_ne_a (x y : FsPath) :
    x ++ ["CLAUDE.md"] ≠ y ++ [".claude", "settings.local.json"] := by
  intro h
  have h2 := congrArg List.getLast? h
  simp [List.getLast?_append_cons] at h2

lemma copyPath_ne_b (x y : FsPath) :
    x ++ [".claude", "settings.local.json"] ≠ y ++ ["CLAUDE.md"] := by
  intro h
  have h2 := congrArg List.getLast? h
  simp [List.getLast?_append_cons] at h2

/-- **C6.** `copy_claude_context` copies each of the two fixed relative
paths exactly when the source exists and the destination does not, returns
exactly that list, and never overwrites: every file existing beforehand
keeps its contents.  Consequently a second identical call copies nothing —
it leaves the store of the first call unchanged and returns a list
disjoint from the first call's. -/
theorem copy_claude_context_no_overwrite (ws sr : FsPath) (fs : FileStore) :
    ((copy_claude_context ws sr fs).1
        = files_to_copy.filter
            (fun rel => (fs (sr ++ rel)).isSome && (fs (ws ++ rel)).isNone))
    ∧ (∀ p v, fs p = some v → (copy_claude_context ws sr fs).2 p = some v)
    ∧ (copy_claude_context ws sr (copy_claude_context ws sr fs).2
        = ([], (copy_claude_context ws sr fs).2))
    ∧ (∀ rel, rel ∈ (copy_claude_context ws sr fs).1 →
        rel ∉ (copy_claude_context ws sr (copy_claude_context ws sr fs).2).1) := by
  have h_s2d1 := copyPath_ne_a sr ws
  have h_d2d1 := copyPath_ne_a ws ws
  have h_s1d2 := copyPath_ne_b sr ws
  have h_d1d2 := copyPath_ne_b ws ws
  rcases hc1 : ((fs (sr ++ [".claude", "settings.local.json"])).isSome
      && (fs (ws ++ [".claude", "settings.local.json"])).isNone) with _ | _
  · have hc1' : ¬((fs (sr ++ [".claude", "settings.local.json"])).isSome = true
        ∧ fs (ws ++ [".claude", "settings.local.json"]) = none) := fun hand => by
      simp [hand.1, hand.2] at hc1
    rcases hc2 : ((fs (sr ++ ["CLAUDE.md"])).isSome
        && (fs (ws ++ ["CLAUDE.md"])).isNone) with _ | _
    · -- nothing is copied
      have hc2' : ¬((fs (sr ++ ["CLAUDE.md"])).isSome = true
          ∧ fs (ws ++ ["CLAUDE.md"]) = none) := fun hand => by
        simp [hand.1, hand.2] at hc2
      refine ⟨?_, ?_, ?_, ?_⟩
      · simp [copy_claude_context, files_to_copy, hc1, hc2, hc1', hc2']
      · intro p v hp
        simpa [copy_claude_context, files_to_copy, hc1', hc2'] using hp
      · simp [copy_claude_context, files_to_copy, hc1', hc2']
      · intro rel hrel
        simp [copy_claude_context, files_to_copy, hc1, hc2, hc1', hc2'] at hrel
    · -- only CLAUDE.md is copied
      have hsp := hc2
      rw [Bool.and_eq_true] at hsp
      obtain ⟨v2, hv2⟩ := Option.isSome_iff_exists.mp hsp.1
      have hn2 : fs (ws ++ ["CLAUDE.md"]) = none := Option.isNone_iff_eq_none.mp hsp.2
      refine ⟨?_, ?_, ?_, ?_⟩
      · simp [copy_claude_context, files_to_copy, hc1, hc1', hv2, hn2]
      · intro p v hp
        by_cases hq2 : p = ws ++ ["CLAUDE.md"]
        · subst hq2; rw [hn2] at hp; exact absurd hp (by simp)
        · simpa [copy_claude_context, files_to_copy, fsUpdate, hc1', hv2, hn2, hq2]
            using hp
      · simp [copy_claude_context, files_to_copy, fsUpdate, hc1', hv2, hn2,
          h_s1d2, h_d1d2]
      · intro rel hrel
        simp [copy_claude_context, files_to_copy, fsUpdate, hc1', hv2, hn2,
          h_s1d2, h_d1d2]
  · -- the settings file is copied
    have hsp := hc1
    rw [Bool.and_eq_true] at hsp
    obtain ⟨v1, hv1⟩ := Option.isSome_iff_exists.mp hsp.1
    have hn1 : fs (ws ++ [".claude", "settings.local.json"]) = none :=
      Option.isNone_iff_eq_none.mp hsp.2
    rcases hc2 : ((fs (sr ++ ["CLAUDE.md"])).isSome
        && (fs (ws ++ ["CLAUDE.md"])).isNone) with _ | _
    · have hc2' : ¬((fs (sr ++ ["CLAUDE.md"])).isSome = true
          ∧ fs (ws ++ ["CLAUDE.md"]) = none) := fun hand => by
        simp [hand.1, hand.2] at hc2
      refine ⟨?_, ?_, ?_, ?_⟩
      · simp [copy_claude_context, files_to_copy, fsUpdate, hv1, hn1, hc2', hc2,
          h_s2d1, h_d2d1]
      · intro p v hp
        by_cases hq1 : p = ws ++ [".claude", "settings.local.json"]
        · subst hq1; rw [hn1] at hp; exact absurd hp (by simp)
        · simpa [copy_claude_context, files_to_copy, fsUpdate, hv1, hn1, hc2',
            h_s2d1, h_d2d1, hq1] using hp
      · simp [copy_claude_context, files_to_copy, fsUpdate, hv1, hn1, hc2',
          h_s2d1, h_d2d1, h_s1d2, h_d1d2]
      · intro rel hrel
        simp [copy_claude_context, files_to_copy, fsUpdate, hv1, hn1, hc2',
          h_s2d1, h_d2d1, h_s1d2, h_d1d2]
    · have hsp2 := hc2
      rw [Bool.and_eq_true] at hsp2
      obtain ⟨v2, hv2⟩ := Option.isSome_iff_exists.mp hsp2.1
      have hn2 : fs (ws ++ ["CLAUDE.md"]) = none := Option.isNone_iff_eq_none.mp hsp2.2
      refine ⟨?_, ?_, ?_, ?_⟩
      · simp [copy_claude_context, files_to_copy, fsUpdate, hv1, hn1, hv2, hn2,
          h_s2d1, h_d2d1]
      · intro p v hp
        by_cases hq1 : p = ws ++ [".claude", "settings.local.json"]
        · subst hq1; rw [hn1] at hp; exact absurd hp (by simp)
        · by_cases hq2 : p = ws ++ ["CLAUDE.md"]
          · subst hq2; rw [hn2] at hp; exact absurd hp (by simp)
          · simpa [copy_claude_context, files_to_copy, fsUpdate, hv1, hn1, hv2, hn2,
              h_s2d1, h_d2d1, hq1, hq2] using hp
      · simp [copy_claude_context, files_to_copy, fsUpdate, hv1, hn1, hv2, hn2,
          h_s2d1, h_d2d1, h_s1d2, h_d1d2]
      · intro rel hrel
        simp [copy_claude_context, files_to_copy, fsUpdate, hv1, hn1, hv2, hn2,
          h_s2d1, h_d2d1, h_s1d2, h_d1d2]

/-- A workspace living at the convention path for home `/home/user`,
repo `myrepo`. -/
def wsManagedExample : Workspace :=
  { path := "/home/user/.claude/workspaces/myrepo/feat-x".data
    branch := some "feat-x".data
    commit := "12345678".data
    is_main := false
    repo_root := "/repo/myrepo".data }

theorem is_managed_amended_witness : wsManagedExample.is_managed = true :=
  is_managed_amended.2 "/home/user".data "myrepo".data wsManagedExample (by decide)

/-- A source repo carrying both context files; the workspace has neither. -/
def fsExample : FileStore := fun p =>
  if p = ["/repo", "CLAUDE.md"] then some "instructions"
  else if p = ["/repo", ".claude", "settings.local.json"] then some "settings"
  else none

theorem copy_claude_context_no_overwrite_witness :
    (copy_claude_context ["/ws"] ["/repo"] fsExample).2 ["/repo", "CLAUDE.md"]
      = some "instructions"
    ∧ [".claude", "settings.local.json"]
        ∉ (copy_claude_context ["/ws"] ["/repo"]
            (copy_claude_context ["/ws"] ["/repo"] fsExample).2).1 :=
  ⟨(copy_claude_context_no_overwrite ["/ws"] ["/repo"] fsExample).2.1
      ["/repo", "CLAUDE.md"] "instructions" (by decide),
   (copy_claude_context_no_overwrite ["/ws"] ["/repo"] fsExample).2.2.2
      [".claude", "settings.local.json"] (by decide)⟩

end Claudectl
